import Mathlib

/-!
# Verification of the git-copilot rule-based code-review engine

Shallow embedding of `src/agents/code-review-expert.js`.  The repository file
contains two `CodeReviewExpert` implementations:

* the first (promise-based `fs`, `performStaticAnalysis`, `generateReviewReport`,
  `assessMaintainability`, `analyzeFile` with the 50,000-character skip and the
  10,000-character slice) — embedded below with the suffix `1`/`V1` where a name
  would clash;
* the second (`fs-extra`, `analyzeFiles` with the four checkers
  `checkCommonIssues` / `checkSecurity` / `checkPerformance` /
  `checkMaintainability`, `identifyIssues`, `getStats`) — embedded with the
  source's own names.

JavaScript strings are modelled as `List Char` (`Chars`); the inputs exercised
here are ASCII, for which JS UTF-16 code-unit indexing, `String.prototype.trim`,
`\s`, `\w` and case folding coincide with the ASCII-level model used below.
JS numbers holding integer counters are modelled as `Nat`/`Int`; the two float
comparisons of the source (`commentRatio`/`avgLineLength` thresholds and the
semicolon-ratio heuristic) are modelled over `ℚ`.
-/

namespace GitCopilot

abbrev Chars := List Char

/-- Severity strings of both implementations (`'CRITICAL'`/`'critical'` …). -/
inductive Severity
  | critical | high | medium | low | info
deriving DecidableEq, Repr

/-- Issue categories: the string literals stored in the `type` field of the
first implementation and the `category` field of the second. -/
inductive Category
  | debugCode          -- 'Debug Code'
  | technicalDebt      -- 'Technical Debt'
  | todoFixme          -- 'TODO/FIXME'
  | codeComplexity     -- 'Code Complexity'
  | security           -- 'Security'
  | performance        -- 'Performance'
  | maintainability    -- 'Maintainability'
  | modernJavaScript   -- 'Modern JavaScript'
  | codeStyle          -- 'Code Style'
deriving DecidableEq, Repr

/-- The `type` field of the second implementation's issues. -/
inductive IssueType
  | error | warning | infoNote
deriving DecidableEq, Repr

/-- An issue object of the second implementation
(`{type, category, line, message, severity}`). -/
structure Issue where
  type : IssueType
  category : Category
  line : Nat
  message : String
  severity : Severity
deriving DecidableEq, Repr

/-- An issue of the second implementation after `identifyIssues` stamps the
source file (`{...issue, file}`). -/
structure FIssue extends Issue where
  file : String
deriving DecidableEq, Repr

/-- An issue object of the first implementation
(`{severity, type, message, line, column, code}`); its `type` field holds the
category string, mirrored here by the `category` field. -/
structure Issue1 where
  severity : Severity
  category : Category
  message : String
  line : Nat
  column : Nat
  code : Option String
deriving DecidableEq, Repr

/-- A first-implementation issue with the stamped `file` field
(`generateReviewReport`). -/
structure FIssue1 extends Issue1 where
  file : String
deriving DecidableEq, Repr

/-! ## Character classes and elementary string operations -/

/-- JS regex `\w` = `[A-Za-z0-9_]`. -/
def isWordChar (c : Char) : Bool := c.isAlpha || c.isDigit || c == '_'

/-- JS regex `\s`, restricted to its ASCII members. -/
def isSpaceJS (c : Char) : Bool :=
  c == ' ' || c == '\t' || c == '\n' || c == '\r' || c == '\x0b' || c == '\x0c'

/-- `pat` is a prefix of `s`. -/
def isPrefixChars : Chars → Chars → Bool
  | [], _ => true
  | _ :: _, [] => false
  | a :: as, b :: bs => a == b && isPrefixChars as bs

/-- JS `String.prototype.includes`. -/
def containsSub (pat : Chars) : Chars → Bool
  | [] => isPrefixChars pat []
  | c :: rest => isPrefixChars pat (c :: rest) || containsSub pat rest

/-- JS `String.prototype.trim` (ASCII whitespace). -/
def trimChars (s : Chars) : Chars :=
  ((s.dropWhile isSpaceJS).reverse.dropWhile isSpaceJS).reverse

/-- `line.trim().startsWith('//')`. -/
def trimStartsSlashSlash (s : Chars) : Bool :=
  isPrefixChars ['/', '/'] (trimChars s)

/-- JS `content.split('\n')` (always at least one element). -/
def splitLines : Chars → List Chars
  | [] => [[]]
  | c :: rest =>
    if c == '\n' then [] :: splitLines rest
    else
      match splitLines rest with
      | [] => [[c]]
      | l :: ls => (c :: l) :: ls

/-- Number of lines of a JS string (`content.split('\n').length`). -/
def countLines (s : Chars) : Nat := (splitLines s).length

/-- Occurrences of a single character (`(line.match(/\{/g) || []).length`). -/
def countChar (c : Char) (s : Chars) : Nat := (s.filter (· == c)).length

/-! ## Regex matcher combinators

Each matcher consumes from the head of a suffix and returns the remaining
suffix on success.  The concrete regexes of the source are all sequences of
literals and character-class repetitions whose classes are pairwise disjoint at
the ambiguity points, so greedy maximal-munch matching is exact for them. -/

def matchLit (lit : Chars) (s : Chars) : Option Chars :=
  match lit, s with
  | [], s => some s
  | _ :: _, [] => none
  | a :: as, b :: bs => if a == b then matchLit as bs else none

/-- Case-insensitive literal match (the literal is given lowercased). -/
def matchLitCI (lit : Chars) (s : Chars) : Option Chars :=
  match lit, s with
  | [], s => some s
  | _ :: _, [] => none
  | a :: as, b :: bs => if a == b.toLower then matchLitCI as bs else none

/-- `p` exactly once. -/
def matchOne (p : Char → Bool) : Chars → Option Chars
  | [] => none
  | c :: rest => if p c then some rest else none

/-- `p+`, greedy. -/
def matchMany1 (p : Char → Bool) : Chars → Option Chars
  | [] => none
  | c :: rest => if p c then some (rest.dropWhile p) else none

/-! ## The function-declaration regex of `checkCommonIssues`

`/function\s+\w+|const\s+\w+\s*=\s*\(|^\s*\w+\s*:\s*function|class\s+\w+/g`

The source creates this regex once per `checkCommonIssues` call and reuses it
with `.test(line)` on every line.  Because of the `g` flag, `.test` is
stateful: it searches from `lastIndex`, advances `lastIndex` past a match, and
resets `lastIndex` to `0` on failure.  The embedding threads that state
explicitly. -/

/-- Alternative 1: `function\s+\w+`. -/
def altFunctionDecl (s : Chars) : Option Chars :=
  (matchLit "function".data s).bind fun r =>
    (matchMany1 isSpaceJS r).bind fun r => matchMany1 isWordChar r

/-- Alternative 2: `const\s+\w+\s*=\s*\(`. -/
def altConstDecl (s : Chars) : Option Chars :=
  (matchLit "const".data s).bind fun r =>
    (matchMany1 isSpaceJS r).bind fun r =>
      (matchMany1 isWordChar r).bind fun r =>
        (matchOne (· == '=') (r.dropWhile isSpaceJS)).bind fun r =>
          matchOne (· == '(') (r.dropWhile isSpaceJS)

/-- Alternative 3: `^\s*\w+\s*:\s*function` (the `^` anchor restricts it to
absolute position 0; callers enforce that). -/
def altColonFunction (s : Chars) : Option Chars :=
  (matchMany1 isWordChar (s.dropWhile isSpaceJS)).bind fun r =>
    (matchOne (· == ':') (r.dropWhile isSpaceJS)).bind fun r =>
      matchLit "function".data (r.dropWhile isSpaceJS)

/-- Alternative 4: `class\s+\w+`. -/
def altClassDecl (s : Chars) : Option Chars :=
  (matchLit "class".data s).bind fun r =>
    (matchMany1 isSpaceJS r).bind fun r => matchMany1 isWordChar r

/-- Try the four alternatives, in source order, at one position. -/
def declAltsAt (atStart : Bool) (s : Chars) : Option Chars :=
  match altFunctionDecl s with
  | some r => some r
  | none =>
    match altConstDecl s with
    | some r => some r
    | none =>
      match (if atStart then altColonFunction s else none) with
      | some r => some r
      | none => altClassDecl s

/-- Leftmost match search from absolute position `pos` (with `suffix` the
remaining characters there); returns the end index of the match. -/
def scanDecl (pos : Nat) (suffix : Chars) : Option Nat :=
  match declAltsAt (pos == 0) suffix with
  | some rest => some (pos + (suffix.length - rest.length))
  | none =>
    match suffix with
    | [] => none
    | _ :: rest => scanDecl (pos + 1) rest

/-- `functionRegex.test(line)` with explicit `lastIndex` state: returns the
test result and the regex's new `lastIndex`. -/
def fnRegexTest (lastIndex : Nat) (line : Chars) : Bool × Nat :=
  match scanDecl lastIndex (line.drop lastIndex) with
  | some e => (true, e)
  | none => (false, 0)

/-! ## `checkCommonIssues` (second implementation) -/

/-- JS truthiness of `currentFunction` (a string or `null`): `null` and the
empty string are falsy. -/
def truthy : Option Chars → Bool
  | none => false
  | some t => !t.isEmpty

/-- The mutable state of the long-function scan in `checkCommonIssues`:
the regex's `lastIndex`, `currentFunction`, `functionStartLine` and
`braceCount` (an unbounded JS number, hence `Int`). -/
structure FnState where
  lastIndex : Nat
  current : Option Chars
  startLine : Nat
  braceCount : Int
deriving DecidableEq, Repr

def fnState0 : FnState := { lastIndex := 0, current := none, startLine := 0, braceCount := 0 }

/-- Message of a long-function finding. -/
def fnLenMsg (n : Int) : String :=
  "Function is too long (" ++ toString n ++ " lines). Consider breaking it down."

/-- The first statement of the `forEach` body: on a regex hit, open (or
restart) the span at this line with a zeroed brace count; either way the
regex's `lastIndex` advances or resets. -/
def fnReset (idx : Nat) (line : Chars) (st : FnState) : FnState :=
  let t := fnRegexTest st.lastIndex line
  if t.1 then
    { st with lastIndex := t.2, current := some (trimChars line),
              startLine := idx + 1, braceCount := 0 }
  else { st with lastIndex := t.2 }

/-- The second statement: inside a truthy span, update the brace balance and
emit the long-function finding when the balance hits zero over more than 50
lines. -/
def fnMeasure (idx : Nat) (line : Chars) (st : FnState) : FnState × List Issue :=
  if truthy st.current then
    let bc : Int := st.braceCount + (countChar '\x7b' line : Int) - (countChar '\x7d' line : Int)
    if bc = 0 ∧ (idx : Int) - st.startLine + 1 > 50 then
      ({ st with braceCount := bc, current := none },
       [{ type := .warning, category := .codeComplexity, line := st.startLine,
          message := fnLenMsg ((idx : Int) - st.startLine + 1), severity := .medium }])
    else ({ st with braceCount := bc }, [])
  else (st, [])

/-- One iteration of the long-function `lines.forEach` body, at 0-based index
`idx`. -/
def fnStep (idx : Nat) (line : Chars) (st : FnState) : FnState × List Issue :=
  fnMeasure idx line (fnReset idx line st)

/-- The long-function scan over all lines, emitting issues in order. -/
def fnScanAux (idx : Nat) (st : FnState) : List Chars → List Issue
  | [] => []
  | l :: ls =>
    let s := fnStep idx l st
    s.2 ++ fnScanAux (idx + 1) s.1 ls

/-- State of the long-function scan after a prefix of the lines. -/
def fnRun (idx : Nat) (st : FnState) : List Chars → FnState
  | [] => st
  | l :: ls => fnRun (idx + 1) (fnStep idx l st).1 ls

/-- State after the first `k` lines of `lines`. -/
def fnStateAfter (lines : List Chars) (k : Nat) : FnState :=
  fnRun 0 fnState0 (lines.take k)

/-- The `console.log` pass of `checkCommonIssues`. -/
def consolePass (lines : List Chars) : List Issue :=
  lines.enum.filterMap fun p =>
    if containsSub "console.log".data p.2 && !trimStartsSlashSlash p.2 then
      some { type := .warning, category := .debugCode, line := p.1 + 1,
             message := "Console.log statement found - consider removing for production",
             severity := .low }
    else none

/-- The `TODO`/`FIXME` pass of `checkCommonIssues`. -/
def todoPass (lines : List Chars) : List Issue :=
  lines.enum.filterMap fun p =>
    if containsSub "TODO".data p.2 || containsSub "FIXME".data p.2 then
      some { type := .infoNote, category := .todoFixme, line := p.1 + 1,
             message := "TODO or FIXME comment found", severity := .info }
    else none

/-- `checkCommonIssues(content, file)` on pre-split lines: the three
`lines.forEach` passes push into one `issues` array in sequence. -/
def checkCommonIssuesL (lines : List Chars) : List Issue :=
  consolePass lines ++ todoPass lines ++ fnScanAux 0 fnState0 lines

/-- `checkCommonIssues(content, file)`. -/
def checkCommonIssues (content : String) : List Issue :=
  checkCommonIssuesL (splitLines content.data)

/-! ## `checkSecurity` (second implementation)

The four `secretPatterns` are case-insensitive (`/i`), stateless (`no g`)
regexes of the form `keyword\s*[=:]\s*["'][^"']+["']`; `.test` scans every
position of the line.  Case-insensitivity is modelled by lowercasing the line
before matching against lowercase keyword literals (the tail's character
classes are case-invariant). -/

/-- `api[_-]?key` (with the one-character backtrack of the optional
separator, which cannot in fact succeed since `_`/`-` never starts `key`). -/
def matchApiKey (s : Chars) : Option Chars :=
  (matchLit "api".data s).bind fun r =>
    match r with
    | c :: rest =>
      if c == '_' || c == '-' then
        match matchLit "key".data rest with
        | some x => some x
        | none => matchLit "key".data r
      else matchLit "key".data r
    | [] => none

/-- `\s*[=:]\s*["'][^"']+["']`. -/
def secretTail (s : Chars) : Option Chars :=
  (matchOne (fun c => c == '=' || c == ':') (s.dropWhile isSpaceJS)).bind fun r =>
    (matchOne (fun c => c == '"' || c == '\x27') (r.dropWhile isSpaceJS)).bind fun r =>
      (matchMany1 (fun c => !(c == '"' || c == '\x27')) r).bind fun r =>
        matchOne (fun c => c == '"' || c == '\x27') r

/-- The keyword parts of the four `secretPatterns`, in source order. -/
def secretKws : List (Chars → Option Chars) :=
  [matchLit "password".data, matchApiKey, matchLit "secret".data, matchLit "token".data]

/-- `regex.test(line)` for a stateless regex: does the matcher succeed at some
position? -/
def scanTest (m : Chars → Option Chars) : Chars → Bool
  | [] => (m []).isSome
  | c :: rest => (m (c :: rest)).isSome || scanTest m rest

/-- One secret pattern tested against a line (`pattern.test(line)`). -/
def secretPatternTest (kw : Chars → Option Chars) (line : Chars) : Bool :=
  scanTest (fun s => (kw s).bind secretTail) (line.map Char.toLower)

/-- Does any of the four secret patterns fire on the line (ignoring the
`process.env` exemption)? -/
def anySecret (line : Chars) : Bool :=
  secretKws.any fun kw => secretPatternTest kw line

def secretMsg : String :=
  "Possible hardcoded secret detected. Use environment variables instead."

/-- The hardcoded-secret pass of `checkSecurity`. -/
def secretsPass (lines : List Chars) : List Issue :=
  lines.enum.flatMap fun p =>
    secretKws.filterMap fun kw =>
      if secretPatternTest kw p.2 && !containsSub "process.env".data p.2 then
        some { type := .error, category := .security, line := p.1 + 1,
               message := secretMsg, severity := .high }
      else none

/-- The `eval(` pass of `checkSecurity`: a single issue at the first line
containing `eval(`, emitted when the whole content contains it
(`findIndex` returns `-1`, hence line `0`, in the unreachable mismatch case). -/
def evalPass (content : Chars) (lines : List Chars) : List Issue :=
  if containsSub "eval(".data content then
    [{ type := .error, category := .security,
       line := (match lines.findIdx? (fun l => containsSub "eval(".data l) with
                | some i => i + 1
                | none => 0),
       message := "Use of eval() is dangerous and should be avoided",
       severity := .high }]
  else []

/-- `checkSecurity(content, file)` on pre-split lines plus raw content. -/
def checkSecurityL (content : Chars) (lines : List Chars) : List Issue :=
  secretsPass lines ++ evalPass content lines

/-- `checkSecurity(content, file)`. -/
def checkSecurity (content : String) : List Issue :=
  checkSecurityL content.data (splitLines content.data)

/-! ## `checkPerformance` (second implementation) -/

/-- The synchronous-file-operation pass. -/
def syncPass (lines : List Chars) : List Issue :=
  lines.enum.flatMap fun p =>
    (["readFileSync", "writeFileSync", "existsSync"]).filterMap fun m =>
      if containsSub m.data p.2 && !trimStartsSlashSlash p.2 then
        some { type := .warning, category := .performance, line := p.1 + 1,
               message := "Synchronous " ++ m ++
                 " call may block the event loop. Consider using async version.",
               severity := .medium }
      else none

/-- A loop-construct line (`line.includes('for ') || line.includes('while ')
|| line.includes('forEach')`). -/
def isLoopLine (line : Chars) : Bool :=
  containsSub "for ".data line || containsSub "while ".data line ||
    containsSub "forEach".data line

def nestedMsg : String :=
  "Deeply nested loops detected. Consider optimizing algorithm complexity."

/-- The depth update a single line applies to `loopDepth`: increment on a
loop-construct line, then `Math.max(0, depth - 1)` on a closing-brace line
(`Nat` subtraction supplies the clamp). -/
def loopDepthStep (depth : Nat) (line : Chars) : Nat :=
  let d1 := if isLoopLine line then depth + 1 else depth
  if containsSub ['\x7d'] line then d1 - 1 else d1

/-- The nested-loop pass: a finding is pushed only inside the loop-construct
branch, when the just-incremented depth exceeds 2. -/
def loopAux (idx : Nat) (depth : Nat) : List Chars → List Issue
  | [] => []
  | l :: ls =>
    let here :=
      if isLoopLine l then
        (if depth + 1 > 2 then
          [{ type := .warning, category := .performance, line := idx + 1,
             message := nestedMsg, severity := .medium }]
         else [])
      else []
    here ++ loopAux (idx + 1) (loopDepthStep depth l) ls

/-- `loopDepth` held at the start of (1-based) line `k`. -/
def loopDepthBefore (lines : List Chars) (k : Nat) : Nat :=
  (lines.take (k - 1)).foldl loopDepthStep 0

/-- `checkPerformance(content, file)` on pre-split lines. -/
def checkPerformanceL (lines : List Chars) : List Issue :=
  syncPass lines ++ loopAux 0 0 lines

/-- `checkPerformance(content, file)`. -/
def checkPerformance (content : String) : List Issue :=
  checkPerformanceL (splitLines content.data)

/-! ## `checkMaintainability` (second implementation) -/

/-- All matches of `/\b(\d{2,})\b/g` on a line: the maximal digit runs of
length ≥ 2 whose neighbours (when present) are non-word characters. -/
def magicAux : Chars → Bool → Chars → List Chars
  | run, startOK, [] =>
    if !run.isEmpty && startOK && run.length ≥ 2 then [run.reverse] else []
  | run, startOK, c :: rest =>
    if c.isDigit then
      magicAux (c :: run) startOK rest
    else
      (if !run.isEmpty && startOK && run.length ≥ 2 && !isWordChar c then
        [run.reverse] else []) ++ magicAux [] (!isWordChar c) rest

/-- `line.match(/\b(\d{2,})\b/g) || []`. -/
def magicRuns (line : Chars) : List Chars := magicAux [] true line

/-- `parseInt` on a digit run. -/
def digitsToNat (run : Chars) : Nat :=
  run.foldl (fun acc c => acc * 10 + (c.toNat - '0'.toNat)) 0

/-- The magic-number pass. -/
def magicPass (lines : List Chars) : List Issue :=
  lines.enum.flatMap fun p =>
    let runs := magicRuns p.2
    if !runs.isEmpty && !trimStartsSlashSlash p.2 then
      runs.filterMap fun run =>
        let v := digitsToNat run
        if v > 1 && v ≠ 100 && v ≠ 1000 then
          some { type := .infoNote, category := .maintainability, line := p.1 + 1,
                 message := "Magic number " ++ String.mk run ++
                   " found. Consider using a named constant.",
                 severity := .low }
        else none
    else []

/-- Alternative `function\s*\([^)]+\)` of the parameter-list regex. -/
def paramAltA (s : Chars) : Option Chars :=
  (matchLit "function".data s).bind fun r =>
    (matchOne (· == '(') (r.dropWhile isSpaceJS)).bind fun r =>
      (matchMany1 (· != ')') r).bind fun r => matchOne (· == ')') r

/-- Alternative `\([^)]+\)\s*=>`. -/
def paramAltB (s : Chars) : Option Chars :=
  (matchOne (· == '(') s).bind fun r =>
    (matchMany1 (· != ')') r).bind fun r =>
      (matchOne (· == ')') r).bind fun r =>
        matchLit "=>".data (r.dropWhile isSpaceJS)

/-- The parameter-list regex: first alternative wins at a position. -/
def paramAlt (s : Chars) : Option Chars :=
  match paramAltA s with
  | some r => some r
  | none => paramAltB s

/-- All non-overlapping matches of a stateless, nonempty-match regex
(`line.match(/.../g)`), fuelled by the line length. -/
def gMatchesAux (alt : Chars → Option Chars) : Nat → Chars → List Chars
  | 0, _ => []
  | _, [] => []
  | fuel + 1, s@(_ :: rest) =>
    match alt s with
    | some r => s.take (s.length - r.length) :: gMatchesAux alt fuel r
    | none => gMatchesAux alt fuel rest

def gMatches (alt : Chars → Option Chars) (s : Chars) : List Chars :=
  gMatchesAux alt s.length s

/-- `match.split(',').length`. -/
def commaParts (s : Chars) : Nat := countChar ',' s + 1

/-- The long-parameter-list pass. -/
def paramPass (lines : List Chars) : List Issue :=
  lines.enum.flatMap fun p =>
    (gMatches paramAlt p.2).filterMap fun m =>
      let params := commaParts m
      if params > 4 then
        some { type := .warning, category := .maintainability, line := p.1 + 1,
               message := "Function has " ++ toString params ++
                 " parameters. Consider using an options object.",
               severity := .low }
      else none

/-- `checkMaintainability(content, file)` on pre-split lines. -/
def checkMaintainabilityL (lines : List Chars) : List Issue :=
  magicPass lines ++ paramPass lines

/-- `checkMaintainability(content, file)`. -/
def checkMaintainability (content : String) : List Issue :=
  checkMaintainabilityL (splitLines content.data)

/-! ## `analyzeFiles`, `identifyIssues`, `getStats` (second implementation) -/

/-- The per-file issue list assembled in `analyzeFiles` (the four checker
results pushed in sequence). -/
def fileIssues (content : String) : List Issue :=
  checkCommonIssues content ++ checkSecurity content ++
    checkPerformance content ++ checkMaintainability content

/-- The Security-category subset of a file's issues. -/
def securityIssues (content : String) : List Issue :=
  (fileIssues content).filter fun i => i.category == Category.security

/-- One `fileAnalysis` object of `analyzeFiles`. -/
structure FileAnalysis where
  file : String
  content : String
  size : Nat
  issues : List Issue
deriving Repr

/-- `analyzeFiles(codeFiles)` on already-read `(path, content)` pairs (file
reading belongs to the excluded filesystem collaborator; a file that fails to
read is skipped, which corresponds to omitting its pair). -/
def analyzeFiles (files : List (String × String)) : List FileAnalysis :=
  files.map fun f =>
    { file := f.1, content := f.2, size := f.2.length, issues := fileIssues f.2 }

/-- The flattening loop of `identifyIssues`: every issue stamped with its
file, files in order, per-file discovery order preserved. -/
def flattenIssues (analyses : List FileAnalysis) : List FIssue :=
  analyses.flatMap fun a => a.issues.map fun i => { toIssue := i, file := a.file }

/-- `severityOrder = { high: 0, medium: 1, low: 2, info: 3 }` of
`identifyIssues`.  The object has no `critical` entry and the second
implementation's checkers never emit that severity
(`analyzeFiles_not_critical` below); the value `4` assigned here is an
arbitrary injective extension exercised by no reachable input. -/
def rank4 : Severity → Nat
  | .high => 0
  | .medium => 1
  | .low => 2
  | .info => 3
  | .critical => 4

/-- `severityOrder = { CRITICAL: 0, HIGH: 1, MEDIUM: 2, LOW: 3, INFO: 4 }` of
the first implementation's `generateReviewReport`. -/
def rank5 : Severity → Nat
  | .critical => 0
  | .high => 1
  | .medium => 2
  | .low => 3
  | .info => 4

/-- Stable insertion by a numeric key: the element goes after every existing
element of key ≤ its own — the unique stable order, matching JS
`Array.prototype.sort`, specified stable since ES2019. -/
def insertByKey (key : α → Nat) (x : α) : List α → List α
  | [] => [x]
  | y :: ys => if key x ≤ key y then x :: y :: ys else y :: insertByKey key x ys

/-- Stable sort by a numeric key (the model of
`allIssues.sort((a, b) => severityOrder[a.severity] - severityOrder[b.severity])`). -/
def sortByKey (key : α → Nat) : List α → List α
  | [] => []
  | x :: xs => insertByKey key x (sortByKey key xs)

/-- `identifyIssues(analysis, rules)`: flatten, then the stable severity sort. -/
def identifyIssues (analyses : List FileAnalysis) : List FIssue :=
  sortByKey (fun i => rank4 i.severity) (flattenIssues analyses)

/-- `getStats(issues)`. -/
structure Stats where
  total : Nat
  high : Nat
  medium : Nat
  low : Nat
  info : Nat
deriving DecidableEq, Repr

def getStats (issues : List FIssue) : Stats :=
  { total := issues.length
    high := (issues.filter fun i => i.severity == Severity.high).length
    medium := (issues.filter fun i => i.severity == Severity.medium).length
    low := (issues.filter fun i => i.severity == Severity.low).length
    info := (issues.filter fun i => i.severity == Severity.info).length }

/-- All categories, for summing the `byCategory` group sizes of
`generateReport`. -/
def allCategories : List Category :=
  [.debugCode, .technicalDebt, .todoFixme, .codeComplexity, .security,
   .performance, .maintainability, .modernJavaScript, .codeStyle]

/-- The size of one `byCategory` group of `generateReport`. -/
def categoryCount (issues : List FIssue) (c : Category) : Nat :=
  (issues.filter fun i => i.category == c).length

/-! ## `performStaticAnalysis` (first implementation)

Five global regexes applied with `content.matchAll(pattern)`; each match is
resolved to 1-based line/column by splitting the prefix before the match
offset on `'\n'`. -/

/-- `console\.log`. -/
def patConsole (s : Chars) : Option Chars := matchLit "console.log".data s

/-- `TODO|FIXME|HACK` with `/i`: first alternative at each position. -/
def patTodo (s : Chars) : Option Chars :=
  match matchLitCI "todo".data s with
  | some r => some r
  | none =>
    match matchLitCI "fixme".data s with
    | some r => some r
    | none => matchLitCI "hack".data s

/-- `eval\s*\(`. -/
def patEval (s : Chars) : Option Chars :=
  (matchLit "eval".data s).bind fun r => matchOne (· == '(') (r.dropWhile isSpaceJS)

/-- `innerHTML\s*=`. -/
def patInnerHTML (s : Chars) : Option Chars :=
  (matchLit "innerHTML".data s).bind fun r => matchOne (· == '=') (r.dropWhile isSpaceJS)

/-- `var\s+` (the match greedily includes the trailing whitespace run). -/
def patVar (s : Chars) : Option Chars :=
  (matchLit "var".data s).bind fun r => matchMany1 isSpaceJS r

/-- `[...content.matchAll(pattern)]`: all non-overlapping matches with their
0-based offsets, leftmost first, resuming after each match end.  Fuelled by
the content length; none of the five patterns matches the empty string. -/
def gIdxAux (alt : Chars → Option Chars) : Nat → Nat → Chars → List (Nat × Chars)
  | 0, _, _ => []
  | _, _, [] => []
  | fuel + 1, pos, s@(_ :: rest) =>
    match alt s with
    | some r =>
      (pos, s.take (s.length - r.length)) :: gIdxAux alt fuel (pos + (s.length - r.length)) r
    | none => gIdxAux alt fuel (pos + 1) rest

def gIdxMatches (alt : Chars → Option Chars) (s : Chars) : List (Nat × Chars) :=
  gIdxAux alt s.length 0 s

/-- `content.substring(0, match.index).split('\n').length`. -/
def lineOfIdx (content : Chars) (idx : Nat) : Nat :=
  countChar '\n' (content.take idx) + 1

/-- `lines[lines.length - 1].length + 1` for the same prefix split. -/
def colOfIdx (content : Chars) (idx : Nat) : Nat :=
  ((content.take idx).reverse.takeWhile (· != '\n')).length + 1

/-- One catalog entry of the first implementation's `patterns` array. -/
structure PatRule where
  alt : Chars → Option Chars
  severity : Severity
  category : Category
  message : String

/-- The `patterns` array, in declaration order. -/
def patterns1 : List PatRule :=
  [ { alt := patConsole, severity := .low, category := .debugCode,
      message := "Console.log statements should be removed in production code" },
    { alt := patTodo, severity := .medium, category := .technicalDebt,
      message := "TODO/FIXME comments indicate unfinished work" },
    { alt := patEval, severity := .critical, category := .security,
      message := "Use of eval() can lead to security vulnerabilities" },
    { alt := patInnerHTML, severity := .high, category := .security,
      message := "innerHTML assignment may lead to XSS vulnerabilities" },
    { alt := patVar, severity := .low, category := .modernJavaScript,
      message := "Consider using let/const instead of var" } ]

/-- The pattern-matching section of `performStaticAnalysis`: for each rule,
one issue per match, in catalog order then match order. -/
def patIssues (content : Chars) : List Issue1 :=
  patterns1.flatMap fun p =>
    (gIdxMatches p.alt content).map fun m =>
      { severity := p.severity, category := p.category, message := p.message,
        line := lineOfIdx content m.1, column := colOfIdx content m.1,
        code := some (String.mk m.2) }

/-- The statement filter of the semicolon heuristic. -/
def semicolonStatement (line : Chars) : Bool :=
  let t := trimChars line
  !t.isEmpty && !isPrefixChars "//".data t && !isPrefixChars "*".data t &&
    !(t.getLast? == some ';') && !(t.getLast? == some '\x7b') && !(t.getLast? == some '\x7d')

/-- The `.js`/`.ts` semicolon-consistency heuristic.  `fullLines` is
`fileInfo.lines`, the line count of the untruncated file; the float comparison
`statements.length > fileInfo.lines * 0.3` is modelled exactly over `ℚ`. -/
def semicolonIssues (ext : String) (content : Chars) (fullLines : Nat) : List Issue1 :=
  if ext == ".js" || ext == ".ts" then
    let statements := (splitLines content).filter semicolonStatement
    if (statements.length : ℚ) > (fullLines : ℚ) * (3 / 10) then
      [{ severity := .low, category := .codeStyle,
         message := "Consider using consistent semicolon usage",
         line := 1, column := 1, code := none }]
    else []
  else []

/-! ## `assessMaintainability` (first implementation) -/

/-- A comment line: trimmed text starting with `//`, `*` or `/*`. -/
def isCommentLine (line : Chars) : Bool :=
  let t := trimChars line
  isPrefixChars "//".data t || isPrefixChars "*".data t || isPrefixChars "/*".data t

structure Maint where
  score : Int
  commentRatio : ℚ
  avgLineLength : ℚ
deriving DecidableEq, Repr

/-- `assessMaintainability(content, fileInfo)`: `content` is the (possibly
truncated) analysis text, `fileLines` is `fileInfo.lines` from the whole
file.  Float ratios are modelled over `ℚ`; the literals `0.1`/`0.3` become
`1/10`/`3/10`. -/
def assessMaintainability (content : String) (fileLines : Nat) : Maint :=
  let lines := splitLines content.data
  let commentLines := (lines.filter isCommentLine).length
  let commentRatio : ℚ := (commentLines : ℚ) / (lines.length : ℚ)
  let avgLineLength : ℚ := (content.data.length : ℚ) / (lines.length : ℚ)
  let s0 : Int := 10
  let s1 := if fileLines > 500 then s0 - 2 else s0
  let s2 := if fileLines > 1000 then s1 - 3 else s1
  let s3 := if commentRatio < 1 / 10 then s2 - 2 else s2
  let s4 := if commentRatio > 3 / 10 then s3 + 1 else s3
  let s5 := if avgLineLength > 120 then s4 - 1 else s4
  let s6 := if avgLineLength > 200 then s5 - 2 else s5
  { score := max 1 (min 10 s6), commentRatio := commentRatio,
    avgLineLength := avgLineLength }

/-- `performStaticAnalysis(fileInfo)` result (the `complexity` field, not
needed by any claim, is omitted). -/
structure Static1 where
  issues : List Issue1
  maint : Maint

def performStaticAnalysis1 (ext : String) (content : String) (fullLines : Nat) : Static1 :=
  { issues := patIssues content.data ++ semicolonIssues ext content.data fullLines
    maint := assessMaintainability content fullLines }

/-! ## `analyzeFile` (first implementation) -/

/-- `fileInfo` of `analyzeFile` merged with its static analysis.  `size` is
`fileStats.size`, modelled as the content length. -/
structure FileInfo1 where
  size : Nat
  extension : String
  lines : Nat
  content : String
  issues : List Issue1
  maint : Maint

/-- Result of `analyzeFile`: the `content.length > 50000` guard returns the
`{filePath, skipped: true, reason}` object before any analysis runs. -/
inductive AnalyzeResult1
  | skipped
  | analyzed (info : FileInfo1)

/-- `analyzeFile(filePath)` on already-read content.  The static analysis
receives `content.slice(0, 10000)` while `lines` and `size` describe the whole
file. -/
def analyzeFile1 (ext : String) (content : String) : AnalyzeResult1 :=
  if content.length > 50000 then .skipped
  else
    let fullLines := countLines content.data
    let sliced : String := String.mk (content.data.take 10000)
    let sa := performStaticAnalysis1 ext sliced fullLines
    .analyzed { size := content.length, extension := ext, lines := fullLines,
                content := sliced, issues := sa.issues, maint := sa.maint }

/-- Issues of an analysis result; a skipped file contributes none
(`generateReviewReport` reads a missing `issues` field as empty). -/
def resultIssues : AnalyzeResult1 → List Issue1
  | .skipped => []
  | .analyzed i => i.issues

def isSkipped : AnalyzeResult1 → Bool
  | .skipped => true
  | .analyzed _ => false

/-- The reported `lines` field (`0` is never reported for an analyzed file;
skipped files report none, modelled as `0`). -/
def resultLines : AnalyzeResult1 → Nat
  | .skipped => 0
  | .analyzed i => i.lines

def resultSize : AnalyzeResult1 → Nat
  | .skipped => 0
  | .analyzed i => i.size

/-! ## `generateReviewReport` aggregation (first implementation) -/

/-- A per-file analysis as consumed by `generateReviewReport`. -/
structure FileAnalysis1 where
  path : String
  issues : List Issue1

/-- The `allIssues` collection loop: file stamping, discovery order kept. -/
def flatten1 (analyses : List FileAnalysis1) : List FIssue1 :=
  analyses.flatMap fun a => a.issues.map fun i => { toIssue1 := i, file := a.path }

/-- `allIssues.sort(...)` with the five-level `severityOrder`. -/
def allIssues1 (analyses : List FileAnalysis1) : List FIssue1 :=
  sortByKey (fun i => rank5 i.severity) (flatten1 analyses)

/-- The analyses fed to `generateReviewReport` by `performReview`:
one entry per reviewed `(path, extension, content)` file, carrying the issues
of its `analyzeFile` result. -/
def reviewAnalyses1 (files : List (String × String × String)) : List FileAnalysis1 :=
  files.map fun f => { path := f.1, issues := resultIssues (analyzeFile1 f.2.1 f.2.2) }

/-- The four severity counters of the first implementation's report summary
(`criticalIssues`, `highIssues`, `mediumIssues`, `lowIssues`); it has no
`INFO` counter. -/
def summary1 (issues : List FIssue1) : Nat × Nat × Nat × Nat :=
  ((issues.filter fun i => i.severity == Severity.critical).length,
   (issues.filter fun i => i.severity == Severity.high).length,
   (issues.filter fun i => i.severity == Severity.medium).length,
   (issues.filter fun i => i.severity == Severity.low).length)

/-! ## Specification-side definitions (from the claims' wording, for the
refinement-style theorems) -/

/-- C9's maintainability formula, transcribed from the claim: start at 10,
apply the six adjustments, then clamp to `[1, 10]`. -/
def maintScoreSpec (lineCount : Nat) (ratio avg : ℚ) : Int :=
  min 10 (max 1
    (10 - (if lineCount > 500 then 2 else 0) - (if lineCount > 1000 then 3 else 0)
        - (if ratio < 1 / 10 then 2 else 0) + (if ratio > 3 / 10 then 1 else 0)
        - (if avg > 120 then 1 else 0) - (if avg > 200 then 2 else 0)))

/-- The amended C6 characterisation: the 1-based lines of the nested-loop
findings are exactly the loop-construct lines whose just-incremented depth
exceeds 2, with the depth evolving by `loopDepthStep`. -/
def nestedLinesSpec (idx depth : Nat) : List Chars → List Nat
  | [] => []
  | l :: ls =>
    (if isLoopLine l && decide (depth + 1 > 2) then [idx + 1] else []) ++
      nestedLinesSpec (idx + 1) (loopDepthStep depth l) ls

/-! ## Concrete inputs for the scenario claims -/

/-- C1's counterexample file: an outer declaration opens a span at line 1;
the inner declaration at line 3 is matched by the (freshly reset) stateful
regex while that span is open. -/
def txtC1 : String := "function outer() \x7b\nlet a = 1;\nfunction inner() \x7b\n\x7d"

/-- Line 3 of `txtC1`. -/
def lineC1 : Chars := "function inner() \x7b".data

/-- C6's counterexample file: four nested loop lines, then a plain line
encountered while `loopDepth = 4`. -/
def txtC6 : String := "for a\nfor b\nfor c\nfor d\nlet x = 1;"

/-- C8's 120-line file: one function declared at line 10 whose braces close
at line 75. -/
def l120 : List String :=
  (List.replicate 9 "let a = 1;") ++ ["function big() \x7b"] ++
    (List.replicate 64 "let b = 1;") ++ ["\x7d"] ++ (List.replicate 45 "let c = 1;")

def content120 : String := String.intercalate "\n" l120

/-- C4's scenario line. -/
def secretLine : String := "const apiKey = \"sk-abc123\";"

/-- C4's environment-variable rewrite. -/
def envLine : String := "const apiKey = process.env.API_KEY;"

/-- A `//`-commented five-parameter arrow signature: the long-parameter-list
pass of `checkMaintainability` has no comment check, so this line still emits
its Maintainability finding. -/
def lineC7 : String := "// const f = (a, b, c, d, e) => a;"

/-- A 50,001-character file, exceeding the 50,000-character ceiling. -/
def bigContent : String := String.mk (List.replicate 50001 'a')

/-! ## Lemmas about the stable severity sort -/

theorem mem_insertByKey {key : α → Nat} {x a : α} :
    ∀ {l : List α}, a ∈ insertByKey key x l ↔ a = x ∨ a ∈ l
  | [] => by simp [insertByKey]
  | y :: ys => by
    simp only [insertByKey]
    split
    · simp [List.mem_cons]
    · simp only [List.mem_cons, mem_insertByKey (l := ys)]
      tauto

theorem pairwise_insertByKey {key : α → Nat} {x : α} :
    ∀ {l : List α}, List.Pairwise (fun a b => key a ≤ key b) l →
      List.Pairwise (fun a b => key a ≤ key b) (insertByKey key x l)
  | [], _ => by simp [insertByKey]
  | y :: ys, h => by
    rw [List.pairwise_cons] at h
    obtain ⟨hy, hys⟩ := h
    by_cases hk : key x ≤ key y
    · rw [insertByKey, if_pos hk, List.pairwise_cons]
      refine ⟨?_, List.pairwise_cons.mpr ⟨hy, hys⟩⟩
      intro b hb
      rcases List.mem_cons.mp hb with rfl | hb
      · exact hk
      · exact le_trans hk (hy b hb)
    · rw [insertByKey, if_neg hk, List.pairwise_cons]
      refine ⟨?_, pairwise_insertByKey hys⟩
      intro b hb
      rcases mem_insertByKey.mp hb with rfl | hb
      · exact le_of_lt (Nat.lt_of_not_le hk)
      · exact hy b hb

/-- Inserting `x` never reorders the elements whose key equals `k`: `x` goes
after every earlier element of key `≤ key x`, in particular after earlier
equals. -/
theorem filter_insertByKey {key : α → Nat} {k : Nat} (x : α) :
    ∀ (l : List α),
      (insertByKey key x l).filter (fun a => key a == k) =
        ((x :: l).filter (fun a => key a == k))
  | [] => rfl
  | y :: ys => by
    by_cases hk : key x ≤ key y
    · rw [insertByKey, if_pos hk]
    · rw [insertByKey, if_neg hk]
      have hlt : key y < key x := Nat.lt_of_not_le hk
      by_cases px : key x = k
      · have py : (key y == k) = false := by
          simp only [beq_eq_false_iff_ne, ne_eq]
          omega
        simp only [List.filter_cons, py, if_neg, Bool.false_eq_true, not_false_iff,
          if_false, filter_insertByKey x ys, px, beq_self_eq_true, if_pos, if_true]
      · have px' : (key x == k) = false := by
          simp only [beq_eq_false_iff_ne, ne_eq]
          exact px
        simp only [List.filter_cons, filter_insertByKey x ys, px', Bool.false_eq_true,
          not_false_iff, if_false]

theorem sortByKey_pairwise (key : α → Nat) :
    ∀ l : List α, List.Pairwise (fun a b => key a ≤ key b) (sortByKey key l)
  | [] => List.Pairwise.nil
  | x :: xs => pairwise_insertByKey (sortByKey_pairwise key xs)

/-- Stability of the severity sort: the subsequence of any fixed key is
untouched. -/
theorem sortByKey_filter (key : α → Nat) (k : Nat) :
    ∀ l : List α,
      (sortByKey key l).filter (fun a => key a == k) = l.filter (fun a => key a == k)
  | [] => rfl
  | x :: xs => by
    rw [sortByKey, filter_insertByKey, List.filter_cons, List.filter_cons,
      sortByKey_filter key k xs]

theorem mem_sortByKey {key : α → Nat} {a : α} :
    ∀ {l : List α}, a ∈ sortByKey key l ↔ a ∈ l
  | [] => Iff.rfl
  | x :: xs => by
    rw [sortByKey, List.mem_cons]
    rw [mem_insertByKey]
    simp only [mem_sortByKey (l := xs)]

/-! ## Rank facts -/

theorem rank4_le_iff_rank5_le (a b : Severity)
    (ha : a ≠ .critical) (hb : b ≠ .critical) :
    rank4 a ≤ rank4 b ↔ rank5 a ≤ rank5 b := by
  cases a <;> cases b <;> simp_all <;> decide

theorem sevBeq_eq_rank4Beq (a s : Severity) : (a == s) = (rank4 a == rank4 s) := by
  cases a <;> cases s <;> decide

theorem sevBeq_eq_rank5Beq (a s : Severity) : (a == s) = (rank5 a == rank5 s) := by
  cases a <;> cases s <;> decide

/-! ## Partition lemmas: filters by each severity / category sum to the
length -/

theorem sev_partition (l : List FIssue) :
    (l.filter fun i => i.severity == Severity.critical).length +
      (l.filter fun i => i.severity == Severity.high).length +
      (l.filter fun i => i.severity == Severity.medium).length +
      (l.filter fun i => i.severity == Severity.low).length +
      (l.filter fun i => i.severity == Severity.info).length = l.length := by
  induction l with
  | nil => rfl
  | cons i t ih =>
    cases h : i.severity <;>
      simp only [List.filter_cons, h, List.length_cons] <;> simp <;> omega

theorem sev_partition1 (l : List FIssue1) :
    (l.filter fun i => i.severity == Severity.critical).length +
      (l.filter fun i => i.severity == Severity.high).length +
      (l.filter fun i => i.severity == Severity.medium).length +
      (l.filter fun i => i.severity == Severity.low).length +
      (l.filter fun i => i.severity == Severity.info).length = l.length := by
  induction l with
  | nil => rfl
  | cons i t ih =>
    cases h : i.severity <;>
      simp only [List.filter_cons, h, List.length_cons] <;> simp <;> omega

theorem cat_partition9 (l : List FIssue) :
    (l.filter fun i => i.category == Category.debugCode).length +
      (l.filter fun i => i.category == Category.technicalDebt).length +
      (l.filter fun i => i.category == Category.todoFixme).length +
      (l.filter fun i => i.category == Category.codeComplexity).length +
      (l.filter fun i => i.category == Category.security).length +
      (l.filter fun i => i.category == Category.performance).length +
      (l.filter fun i => i.category == Category.maintainability).length +
      (l.filter fun i => i.category == Category.modernJavaScript).length +
      (l.filter fun i => i.category == Category.codeStyle).length = l.length := by
  induction l with
  | nil => rfl
  | cons i t ih =>
    cases h : i.category <;> simp [List.filter_cons, h] <;> omega

theorem cat_partition (l : List FIssue) :
    (allCategories.map fun c => categoryCount l c).sum = l.length := by
  have h9 := cat_partition9 l
  simp only [allCategories, categoryCount, List.map_cons, List.map_nil,
    List.sum_cons, List.sum_nil, Nat.add_zero]
  omega

/-! ## What each checker of the second implementation can emit -/

theorem consolePass_mem {lines : List Chars} {i : Issue} (h : i ∈ consolePass lines) :
    i.category = .debugCode ∧ i.severity = .low := by
  simp only [consolePass, List.mem_filterMap] at h
  obtain ⟨p, -, hp⟩ := h
  split at hp
  · cases hp
    exact ⟨rfl, rfl⟩
  · cases hp

theorem todoPass_mem {lines : List Chars} {i : Issue} (h : i ∈ todoPass lines) :
    i.category = .todoFixme ∧ i.severity = .info := by
  simp only [todoPass, List.mem_filterMap] at h
  obtain ⟨p, -, hp⟩ := h
  split at hp
  · cases hp
    exact ⟨rfl, rfl⟩
  · cases hp

theorem fnMeasure_mem {idx : Nat} {line : Chars} {st : FnState} {i : Issue}
    (h : i ∈ (fnMeasure idx line st).2) :
    i.category = .codeComplexity ∧ i.severity = .medium := by
  simp only [fnMeasure] at h
  split at h
  · split at h
    · simp only [List.mem_singleton] at h
      subst h
      exact ⟨rfl, rfl⟩
    · simp at h
  · simp at h

theorem fnScanAux_mem :
    ∀ {lines : List Chars} {idx : Nat} {st : FnState} {i : Issue},
      i ∈ fnScanAux idx st lines → i.category = .codeComplexity ∧ i.severity = .medium
  | [], _, _, _, h => by simp [fnScanAux] at h
  | l :: ls, idx, st, i, h => by
    rw [fnScanAux] at h
    rcases List.mem_append.mp h with h | h
    · exact fnMeasure_mem h
    · exact fnScanAux_mem h

theorem checkCommonIssuesL_mem {lines : List Chars} {i : Issue}
    (h : i ∈ checkCommonIssuesL lines) :
    (i.category = .debugCode ∧ i.severity = .low) ∨
      (i.category = .todoFixme ∧ i.severity = .info) ∨
      (i.category = .codeComplexity ∧ i.severity = .medium) := by
  rcases List.mem_append.mp h with h | h
  · rcases List.mem_append.mp h with h | h
    · exact Or.inl (consolePass_mem h)
    · exact Or.inr (Or.inl (todoPass_mem h))
  · exact Or.inr (Or.inr (fnScanAux_mem h))

theorem secretsPass_mem {lines : List Chars} {i : Issue} (h : i ∈ secretsPass lines) :
    i.category = .security ∧ i.severity = .high := by
  simp only [secretsPass, List.mem_flatMap, List.mem_filterMap] at h
  obtain ⟨p, -, kw, -, hp⟩ := h
  split at hp
  · cases hp
    exact ⟨rfl, rfl⟩
  · cases hp

theorem evalPass_mem {content : Chars} {lines : List Chars} {i : Issue}
    (h : i ∈ evalPass content lines) :
    i.category = .security ∧ i.severity = .high := by
  simp only [evalPass] at h
  split at h
  · simp only [List.mem_singleton] at h
    subst h
    exact ⟨rfl, rfl⟩
  · simp at h

theorem checkSecurityL_mem {content : Chars} {lines : List Chars} {i : Issue}
    (h : i ∈ checkSecurityL content lines) :
    i.category = .security ∧ i.severity = .high := by
  rcases List.mem_append.mp h with h | h
  · exact secretsPass_mem h
  · exact evalPass_mem h

theorem syncPass_mem {lines : List Chars} {i : Issue} (h : i ∈ syncPass lines) :
    i.category = .performance ∧ i.severity = .medium ∧ (i.message == nestedMsg) = false := by
  simp only [syncPass, List.mem_flatMap, List.mem_filterMap] at h
  obtain ⟨p, -, m, hm, hp⟩ := h
  split at hp
  · cases hp
    refine ⟨rfl, rfl, ?_⟩
    simp only [List.mem_cons, List.mem_singleton] at hm
    rcases hm with rfl | rfl | rfl | hm
    · rfl
    · rfl
    · rfl
    · simp at hm
  · cases hp

theorem loopAux_mem :
    ∀ {lines : List Chars} {idx depth : Nat} {i : Issue},
      i ∈ loopAux idx depth lines →
        i.category = .performance ∧ i.severity = .medium ∧ i.message = nestedMsg
  | [], _, _, _, h => by simp [loopAux] at h
  | l :: ls, idx, depth, i, h => by
    rw [loopAux] at h
    rcases List.mem_append.mp h with h | h
    · split at h
      · split at h
        · simp only [List.mem_singleton] at h
          subst h
          exact ⟨rfl, rfl, rfl⟩
        · simp at h
      · simp at h
    · exact loopAux_mem h

theorem checkPerformanceL_mem {lines : List Chars} {i : Issue}
    (h : i ∈ checkPerformanceL lines) :
    i.category = .performance ∧ i.severity = .medium := by
  rcases List.mem_append.mp h with h | h
  · exact ⟨(syncPass_mem h).1, (syncPass_mem h).2.1⟩
  · exact ⟨(loopAux_mem h).1, (loopAux_mem h).2.1⟩

theorem magicPass_mem {lines : List Chars} {i : Issue} (h : i ∈ magicPass lines) :
    i.category = .maintainability ∧ i.severity = .low := by
  simp only [magicPass, List.mem_flatMap] at h
  obtain ⟨p, -, hp⟩ := h
  split at hp
  · simp only [List.mem_filterMap] at hp
    obtain ⟨run, -, hr⟩ := hp
    split at hr
    · cases hr
      exact ⟨rfl, rfl⟩
    · cases hr
  · simp at hp

theorem paramPass_mem {lines : List Chars} {i : Issue} (h : i ∈ paramPass lines) :
    i.category = .maintainability ∧ i.severity = .low := by
  simp only [paramPass, List.mem_flatMap, List.mem_filterMap] at h
  obtain ⟨p, -, m, -, hp⟩ := h
  split at hp
  · cases hp
    exact ⟨rfl, rfl⟩
  · cases hp

theorem checkMaintainabilityL_mem {lines : List Chars} {i : Issue}
    (h : i ∈ checkMaintainabilityL lines) :
    i.category = .maintainability ∧ i.severity = .low := by
  rcases List.mem_append.mp h with h | h
  · exact magicPass_mem h
  · exact paramPass_mem h

/-- The second implementation never emits the `critical` severity: it is
absent from its `severityOrder`, consistently. -/
theorem fileIssues_not_critical {c : String} {i : Issue} (h : i ∈ fileIssues c) :
    i.severity ≠ .critical := by
  rcases List.mem_append.mp h with h | h
  · rcases List.mem_append.mp h with h | h
    · rcases List.mem_append.mp h with h | h
      · rcases checkCommonIssuesL_mem h with ⟨-, hs⟩ | ⟨-, hs⟩ | ⟨-, hs⟩ <;>
          simp [hs]
      · have hs := (checkSecurityL_mem h).2
        simp [hs]
    · have hs := (checkPerformanceL_mem h).2
      simp [hs]
  · have hs := (checkMaintainabilityL_mem h).2
    simp [hs]

theorem identifyIssues_not_critical {files : List (String × String)} {i : FIssue}
    (h : i ∈ identifyIssues (analyzeFiles files)) : i.severity ≠ .critical := by
  rw [identifyIssues, mem_sortByKey] at h
  simp only [flattenIssues, List.mem_flatMap, List.mem_map] at h
  obtain ⟨a, ha, i0, hi0, rfl⟩ := h
  simp only [analyzeFiles, List.mem_map] at ha
  obtain ⟨f, -, rfl⟩ := ha
  exact fileIssues_not_critical hi0

/-! ## What the first implementation's analysis can emit -/

theorem patterns1_not_info {p : PatRule} (hp : p ∈ patterns1) : p.severity ≠ .info := by
  simp only [patterns1, List.mem_cons, List.mem_singleton] at hp
  rcases hp with rfl | rfl | rfl | rfl | rfl | h
  · decide
  · decide
  · decide
  · decide
  · decide
  · simp at h

theorem patIssues_mem {c : Chars} {i : Issue1} (h : i ∈ patIssues c) :
    i.severity ≠ .info ∧ ∃ idx, i.line = lineOfIdx c idx := by
  simp only [patIssues, List.mem_flatMap, List.mem_map] at h
  obtain ⟨p, hp, m, -, rfl⟩ := h
  exact ⟨patterns1_not_info hp, m.1, rfl⟩

theorem semicolonIssues_mem {ext : String} {c : Chars} {fl : Nat} {i : Issue1}
    (h : i ∈ semicolonIssues ext c fl) : i.severity = .low ∧ i.line = 1 := by
  simp only [semicolonIssues] at h
  split at h
  · split at h
    · simp only [List.mem_singleton] at h
      subst h
      exact ⟨rfl, rfl⟩
    · simp at h
  · simp at h

/-! ## Line arithmetic -/

theorem splitLines_length (s : Chars) : (splitLines s).length = countChar '\n' s + 1 := by
  induction s with
  | nil => rfl
  | cons c rest ih =>
    by_cases hc : c = '\n'
    · subst hc
      simp [splitLines, countChar, List.filter_cons] at ih ⊢
      omega
    · have hc' : (c == '\n') = false := by simp [hc]
      rw [splitLines, if_neg (by simp [hc'])]
      cases hsplit : splitLines rest with
      | nil => rw [hsplit] at ih; simp at ih
      | cons l ls =>
        rw [hsplit] at ih
        simp only [List.length_cons] at ih ⊢
        rw [countChar, List.filter_cons, if_neg (by simp [hc'])]
        exact ih

theorem countChar_take_le (c : Char) (n : Nat) (s : Chars) :
    countChar c (s.take n) ≤ countChar c s := by
  conv_rhs => rw [← List.take_append_drop n s]
  rw [countChar, countChar, List.filter_append, List.length_append]
  omega

theorem lineOfIdx_le (content : Chars) (idx : Nat) :
    lineOfIdx content idx ≤ countLines content := by
  rw [lineOfIdx, countLines, splitLines_length]
  have := countChar_take_le '\n' idx content
  omega

theorem countLines_pos (s : Chars) : 1 ≤ countLines s := by
  rw [countLines, splitLines_length]
  omega

theorem resultIssues_not_info {ext content : String} {i : Issue1}
    (h : i ∈ resultIssues (analyzeFile1 ext content)) : i.severity ≠ .info := by
  rw [analyzeFile1] at h
  split at h
  · simp [resultIssues] at h
  · simp only [resultIssues, performStaticAnalysis1] at h
    rcases List.mem_append.mp h with h | h
    · exact (patIssues_mem h).1
    · rw [(semicolonIssues_mem h).1]
      simp

theorem allIssues1_not_info {files : List (String × String × String)} {i : FIssue1}
    (h : i ∈ allIssues1 (reviewAnalyses1 files)) : i.severity ≠ .info := by
  rw [allIssues1, mem_sortByKey] at h
  simp only [flatten1, List.mem_flatMap, List.mem_map] at h
  obtain ⟨a, ha, i0, hi0, rfl⟩ := h
  simp only [reviewAnalyses1, List.mem_map] at ha
  obtain ⟨f, -, rfl⟩ := ha
  exact resultIssues_not_info hi0

/-! ## The nested-loop characterisation -/

theorem loopAux_spec :
    ∀ (lines : List Chars) (idx depth : Nat),
      (((loopAux idx depth lines).filter fun i => i.message == nestedMsg).map
          fun i => i.line) = nestedLinesSpec idx depth lines
  | [], _, _ => rfl
  | l :: ls, idx, depth => by
    rw [loopAux, nestedLinesSpec, List.filter_append, List.map_append,
      loopAux_spec ls]
    congr 1
    by_cases h1 : isLoopLine l
    · by_cases h2 : depth + 1 > 2
      · simp [h1, h2, List.filter_cons]
      · simp [h1, h2]
    · simp [h1]

theorem syncPass_filter_nested (lines : List Chars) :
    ((syncPass lines).filter fun i => i.message == nestedMsg) = [] :=
  List.filter_eq_nil_iff.mpr fun i hi => by
    simp [(syncPass_mem hi).2.2]

/-! # The claims -/

/-- C1, counterexample.  In `txtC1` the span opened at line 1 is still open
after line 2 (`current` truthy, `startLine = 1`, `braceCount = 1`); line 3 is
a declaration line the stateful regex accepts; yet after line 3 the scan's
start line is 3 (not 1) and its brace balance is 1 (not the 1 + 1 = 2 the
claim's «unchanged balance plus this line's braces» would give): the inner
declaration did start a new span. -/
theorem c1_cx :
    (fnStateAfter (splitLines txtC1.data) 2).current.isSome = true ∧
    (fnStateAfter (splitLines txtC1.data) 2).startLine = 1 ∧
    (fnStateAfter (splitLines txtC1.data) 2).braceCount = 1 ∧
    (fnRegexTest (fnStateAfter (splitLines txtC1.data) 2).lastIndex lineC1).1 = true ∧
    (splitLines txtC1.data).get? 2 = some lineC1 ∧
    (fnStateAfter (splitLines txtC1.data) 3).startLine = 3 ∧
    (fnStateAfter (splitLines txtC1.data) 3).braceCount = 1 :=
  ⟨rfl, rfl, rfl, rfl, rfl, rfl, rfl⟩

/-- C1, amended: when the stateful declaration regex accepts a line — also
while a span is already open — the scan restarts the span there: the start
line becomes that line, the brace balance is recomputed from zero over that
line's braces alone, and measurement continues to the new span's close. -/
theorem c1_restart (st : FnState) (idx : Nat) (line : Chars)
    (hopen : truthy st.current = true)
    (hdecl : (fnRegexTest st.lastIndex line).1 = true)
    (htrim : (trimChars line).isEmpty = false) :
    (fnStep idx line st).1.startLine = idx + 1 ∧
    (fnStep idx line st).1.current = some (trimChars line) ∧
    (fnStep idx line st).1.braceCount =
      (countChar '\x7b' line : Int) - (countChar '\x7d' line : Int) := by
  have hreset : fnReset idx line st =
      { st with lastIndex := (fnRegexTest st.lastIndex line).2,
                current := some (trimChars line), startLine := idx + 1,
                braceCount := 0 } := by
    rw [fnReset]
    simp only [hdecl, if_true]
  rw [fnStep, hreset, fnMeasure]
  have htr : truthy (some (trimChars line)) = true := by
    simp [truthy, htrim]
  rw [if_pos htr]
  have hno : ¬((0 : Int) + (countChar '\x7b' line : Int) - (countChar '\x7d' line : Int) = 0 ∧
      (idx : Int) - ((idx + 1 : Nat) : Int) + 1 > 50) := by
    rintro ⟨-, habs⟩
    push_cast at habs
    omega
  rw [if_neg hno]
  refine ⟨rfl, rfl, ?_⟩
  simp

/-- C1 witness: the restart theorem applied to the state reached after the
first two lines of `txtC1` and its third line. -/
theorem c1_restart_witness :
    truthy (fnStateAfter (splitLines txtC1.data) 2).current = true ∧
    (fnRegexTest (fnStateAfter (splitLines txtC1.data) 2).lastIndex lineC1).1 = true ∧
    (trimChars lineC1).isEmpty = false ∧
    ((fnStep 2 lineC1 (fnStateAfter (splitLines txtC1.data) 2)).1.startLine = 2 + 1 ∧
     (fnStep 2 lineC1 (fnStateAfter (splitLines txtC1.data) 2)).1.current =
       some (trimChars lineC1) ∧
     (fnStep 2 lineC1 (fnStateAfter (splitLines txtC1.data) 2)).1.braceCount =
       (countChar '\x7b' lineC1 : Int) - (countChar '\x7d' lineC1 : Int)) :=
  ⟨rfl, rfl, rfl, c1_restart _ 2 lineC1 rfl rfl rfl⟩

/-- C4: `const apiKey = "sk-abc123";` produces exactly one Security finding,
of `high` severity, at line 1; the `process.env` rewrite produces none. -/
theorem c4_secret :
    securityIssues secretLine =
      [{ type := .error, category := .security, line := 1,
         message := secretMsg, severity := .high }] ∧
    securityIssues envLine = [] :=
  ⟨rfl, rfl⟩

/-- C5: a file whose content exceeds 50,000 characters is skipped — the
result is the `skipped` marker, it carries no findings, and
`performStaticAnalysis` is never reached (the guard returns first). -/
theorem c5_skip (ext content : String) (h : content.length > 50000) :
    analyzeFile1 ext content = .skipped ∧
    resultIssues (analyzeFile1 ext content) = [] ∧
    isSkipped (analyzeFile1 ext content) = true := by
  rw [analyzeFile1]
  rw [if_pos h]
  exact ⟨rfl, rfl, rfl⟩

/-- C5 witness: a concrete 50,001-character file. -/
theorem c5_skip_witness :
    bigContent.length > 50000 ∧
    (analyzeFile1 ".js" bigContent = .skipped ∧
     resultIssues (analyzeFile1 ".js" bigContent) = [] ∧
     isSkipped (analyzeFile1 ".js" bigContent) = true) := by
  have h : bigContent.length > 50000 := by
    have : bigContent.length = 50001 := by
      rw [bigContent, String.length]
      exact List.length_replicate 50001 'a'
    omega
  exact ⟨h, c5_skip ".js" bigContent h⟩

/-- C6, counterexample.  In `txtC6` the fifth line is encountered while
`loopDepth = 4 > 2`, yet no finding is anchored at line 5: findings are only
emitted on loop-construct lines, not on every line while the depth exceeds
2. -/
theorem c6_cx :
    loopDepthBefore (splitLines txtC6.data) 5 = 4 ∧
    ((checkPerformance txtC6).filter fun i => i.line == 5) = [] :=
  ⟨rfl, rfl⟩

/-- C6, amended: `loopDepth` is incremented on each loop-construct line and
decremented (clamped at zero) on each closing-brace line, and a
Performance/Medium finding is emitted exactly at the loop-construct lines
whose just-incremented depth exceeds 2 (`nestedLinesSpec`); lines that are
not loop constructs emit nothing even while the depth exceeds 2.  A file
with loops nested 4 deep still emits such findings (at lines 3 and 4 of
`txtC6`). -/
theorem c6_nesting :
    (∀ content : String,
      ((((checkPerformance content).filter fun i => i.message == nestedMsg).map
          fun i => i.line) = nestedLinesSpec 0 0 (splitLines content.data)) ∧
      ∀ i ∈ checkPerformance content, i.message = nestedMsg →
        i.category = .performance ∧ i.severity = .medium) ∧
    (((checkPerformance txtC6).filter fun i => i.message == nestedMsg).map
        fun i => i.line) = [3, 4] := by
  refine ⟨fun content => ⟨?_, ?_⟩, ?_⟩
  · rw [checkPerformance, checkPerformanceL, List.filter_append,
      syncPass_filter_nested, List.nil_append, loopAux_spec]
  · intro i hi hmsg
    rcases List.mem_append.mp hi with hi | hi
    · exact ⟨(syncPass_mem hi).1, (syncPass_mem hi).2.1⟩
    · exact ⟨(loopAux_mem hi).1, (loopAux_mem hi).2.1⟩
  · rfl

/-- C6 witness: the characterisation applied to the concrete 4-deep file. -/
theorem c6_nesting_witness :
    ((((checkPerformance txtC6).filter fun i => i.message == nestedMsg).map
        fun i => i.line) = nestedLinesSpec 0 0 (splitLines txtC6.data)) ∧
    nestedLinesSpec 0 0 (splitLines txtC6.data) = [3, 4] :=
  ⟨(c6_nesting.1 txtC6).1, rfl⟩

set_option maxRecDepth 200000 in
/-- C8: in the 120-line file whose single function opens at line 10 and whose
braces close at line 75, the long-function check emits exactly one
Complexity/Medium finding, anchored at line 10, carrying the measured length
in its message (the scan measures `index - functionStartLine + 1 = 65`,
mixing a 0-based index with a 1-based start line). -/
theorem c8_long_function :
    ((fileIssues content120).filter fun i => i.category == Category.codeComplexity) =
      [{ type := .warning, category := .codeComplexity, line := 10,
         message := "Function is too long (65 lines). Consider breaking it down.",
         severity := .medium }] := by
  rfl

/-- C9: the maintainability score equals the claim's formula — start at 10,
subtract 2 when the file's line count exceeds 500 and a further 3 beyond
1000, subtract 2 when the comment ratio is below 0.10 and add 1 above 0.30,
subtract 1 when the average line length exceeds 120 and a further 2 beyond
200, clamped to `[1, 10]`. -/
theorem c9_maintainability (content : String) (fileLines : Nat) :
    (assessMaintainability content fileLines).score =
      maintScoreSpec fileLines (assessMaintainability content fileLines).commentRatio
        (assessMaintainability content fileLines).avgLineLength := by
  rw [assessMaintainability, maintScoreSpec]
  dsimp only
  split_ifs <;> decide

/-- C2: the aggregated findings sequence is the stable sort of the flattened
per-file findings by severity rank (Critical < High < Medium < Low < Info):
ranks are monotonically non-decreasing across it, and the subsequence of each
severity equals that of the flattened (per-file discovery order) list —
stated for both implementations' sorts, end-to-end for the second (whose
`severityOrder` has only the four reachable severities). -/
theorem c2_severity_sort :
    (∀ analyses : List FileAnalysis1,
      List.Pairwise (fun a b => rank5 a.severity ≤ rank5 b.severity) (allIssues1 analyses) ∧
      ∀ s : Severity,
        ((allIssues1 analyses).filter fun i => i.severity == s) =
          ((flatten1 analyses).filter fun i => i.severity == s)) ∧
    (∀ files : List (String × String),
      List.Pairwise (fun a b => rank5 a.severity ≤ rank5 b.severity)
        (identifyIssues (analyzeFiles files)) ∧
      ∀ s : Severity,
        ((identifyIssues (analyzeFiles files)).filter fun i => i.severity == s) =
          ((flattenIssues (analyzeFiles files)).filter fun i => i.severity == s)) := by
  constructor
  · intro analyses
    constructor
    · exact sortByKey_pairwise _ _
    · intro s
      have h1 : ((allIssues1 analyses).filter fun i => i.severity == s) =
          ((allIssues1 analyses).filter fun i => rank5 i.severity == rank5 s) :=
        List.filter_congr fun i _ => sevBeq_eq_rank5Beq i.severity s
      have h2 : ((flatten1 analyses).filter fun i => i.severity == s) =
          ((flatten1 analyses).filter fun i => rank5 i.severity == rank5 s) :=
        List.filter_congr fun i _ => sevBeq_eq_rank5Beq i.severity s
      rw [h1, h2]
      exact sortByKey_filter (fun i => rank5 i.severity) (rank5 s) (flatten1 analyses)
  · intro files
    constructor
    · have hp := sortByKey_pairwise (fun i : FIssue => rank4 i.severity)
        (flattenIssues (analyzeFiles files))
      refine List.Pairwise.imp_of_mem ?_ hp
      intro a b ha hb hr
      have ha' : a ∈ identifyIssues (analyzeFiles files) := ha
      have hb' : b ∈ identifyIssues (analyzeFiles files) := hb
      exact (rank4_le_iff_rank5_le _ _ (identifyIssues_not_critical ha')
        (identifyIssues_not_critical hb')).mp hr
    · intro s
      have h1 : ((identifyIssues (analyzeFiles files)).filter fun i => i.severity == s) =
          ((identifyIssues (analyzeFiles files)).filter fun i =>
            rank4 i.severity == rank4 s) :=
        List.filter_congr fun i _ => sevBeq_eq_rank4Beq i.severity s
      have h2 : ((flattenIssues (analyzeFiles files)).filter fun i => i.severity == s) =
          ((flattenIssues (analyzeFiles files)).filter fun i =>
            rank4 i.severity == rank4 s) :=
        List.filter_congr fun i _ => sevBeq_eq_rank4Beq i.severity s
      rw [h1, h2]
      exact sortByKey_filter (fun i => rank4 i.severity) (rank4 s)
        (flattenIssues (analyzeFiles files))

/-- C3: the per-severity counts of the report summary sum exactly to the
total finding count, and so do the per-category group sizes — for the second
implementation's `getStats`/`byCategory` over any analyzed file set, and for
the first implementation's four summary counters over any reviewed file
set. -/
theorem c3_count_sums :
    (∀ files : List (String × String),
      (getStats (identifyIssues (analyzeFiles files))).high +
        (getStats (identifyIssues (analyzeFiles files))).medium +
        (getStats (identifyIssues (analyzeFiles files))).low +
        (getStats (identifyIssues (analyzeFiles files))).info =
        (getStats (identifyIssues (analyzeFiles files))).total ∧
      (allCategories.map fun c =>
          categoryCount (identifyIssues (analyzeFiles files)) c).sum =
        (getStats (identifyIssues (analyzeFiles files))).total) ∧
    (∀ files : List (String × String × String),
      (summary1 (allIssues1 (reviewAnalyses1 files))).1 +
        (summary1 (allIssues1 (reviewAnalyses1 files))).2.1 +
        (summary1 (allIssues1 (reviewAnalyses1 files))).2.2.1 +
        (summary1 (allIssues1 (reviewAnalyses1 files))).2.2.2 =
        (allIssues1 (reviewAnalyses1 files)).length) := by
  constructor
  · intro files
    have hcrit : ((identifyIssues (analyzeFiles files)).filter fun i =>
        i.severity == Severity.critical) = [] :=
      List.filter_eq_nil_iff.mpr fun i hi => by
        simpa using identifyIssues_not_critical hi
    have hpart := sev_partition (identifyIssues (analyzeFiles files))
    rw [hcrit] at hpart
    simp only [List.length_nil] at hpart
    constructor
    · simp only [getStats]
      omega
    · rw [cat_partition]
      rfl
  · intro files
    have hinfo : ((allIssues1 (reviewAnalyses1 files)).filter fun i =>
        i.severity == Severity.info) = [] :=
      List.filter_eq_nil_iff.mpr fun i hi => by
        simpa using allIssues1_not_info hi
    have hpart := sev_partition1 (allIssues1 (reviewAnalyses1 files))
    rw [hinfo] at hpart
    simp only [List.length_nil, summary1] at hpart ⊢
    omega

/-- C7, counterexample: a `console.log` match inside a block comment
(`/* console.log(x) */`) is *not* suppressed — the DebugCode finding is
emitted, because the source only suppresses lines whose trimmed text starts
with `//`. -/
theorem c7_cx :
    ((checkCommonIssues "/* console.log(x) */").filter fun i =>
        i.category == Category.debugCode) =
      [{ type := .warning, category := .debugCode, line := 1,
         message := "Console.log statement found - consider removing for production",
         severity := .low }] := rfl

/-- C7, amended: comment suppression is a trimmed-`//`-prefix check on whole
lines, and it is applied rule by rule, not per category.  DebugCode
`console.log` matches and Maintainability magic-number matches on such lines
are suppressed (block comments and trailing comments are not — see the
counterexample); the Maintainability long-parameter-list rule has no comment
check at all, so even a `//`-commented five-parameter signature still emits
its finding; and Security secret findings are never comment-suppressed: a
`//`-commented secret-looking line still yields a Security/High finding at
its line. -/
theorem c7_comment_suppression :
    (∀ l : Chars, trimStartsSlashSlash l = true →
      ((checkCommonIssuesL [l]).filter fun i => i.category == Category.debugCode) = []) ∧
    (∀ l : Chars, trimStartsSlashSlash l = true → magicPass [l] = []) ∧
    (trimStartsSlashSlash lineC7.data = true ∧
      checkMaintainabilityL [lineC7.data] =
        [{ type := .warning, category := .maintainability, line := 1,
           message := "Function has 5 parameters. Consider using an options object.",
           severity := .low }]) ∧
    (∀ l : Chars, trimStartsSlashSlash l = true → anySecret l = true →
      containsSub "process.env".data l = false →
      ∃ i ∈ secretsPass [l],
        i.category = .security ∧ i.severity = .high ∧ i.line = 1) := by
  refine ⟨?_, ?_, ⟨rfl, rfl⟩, ?_⟩
  · intro l h
    rw [checkCommonIssuesL, List.filter_append, List.filter_append]
    have h1 : consolePass [l] = [] := by
      simp [consolePass, List.enum, h]
    have h2 : ((todoPass [l]).filter fun i => i.category == Category.debugCode) = [] :=
      List.filter_eq_nil_iff.mpr fun i hi => by simp [(todoPass_mem hi).1]
    have h3 : ((fnScanAux 0 fnState0 [l]).filter fun i =>
        i.category == Category.debugCode) = [] :=
      List.filter_eq_nil_iff.mpr fun i hi => by simp [(fnScanAux_mem hi).1]
    rw [h1, h2, h3]
    rfl
  · intro l h
    simp [magicPass, List.enum, h]
  · intro l hcomment hsecret hproc
    rw [anySecret, List.any_eq_true] at hsecret
    obtain ⟨kw, hkw, htest⟩ := hsecret
    refine ⟨{ type := .error, category := .security, line := 1,
              message := secretMsg, severity := .high }, ?_, rfl, rfl, rfl⟩
    rw [secretsPass]
    refine List.mem_flatMap.mpr ⟨(0, l), by simp [List.enum], ?_⟩
    refine List.mem_filterMap.mpr ⟨kw, hkw, ?_⟩
    have hcond : (secretPatternTest kw l && !containsSub "process.env".data l) = true := by
      rw [htest, hproc]
      rfl
    rw [if_pos hcond]

/-- C7 witness: the suppression halves applied to a commented-out
`console.log` line and a commented-out magic-number line, and the security
half applied to a commented-out hardcoded password line. -/
theorem c7_comment_suppression_witness :
    trimStartsSlashSlash ("// console.log(x)").data = true ∧
    ((checkCommonIssuesL [("// console.log(x)").data]).filter fun i =>
        i.category == Category.debugCode) = [] ∧
    trimStartsSlashSlash ("// let x = 42;").data = true ∧
    magicRuns ("// let x = 42;").data = [['4', '2']] ∧
    magicPass [("// let x = 42;").data] = [] ∧
    trimStartsSlashSlash ("// password = \"hunter2\"").data = true ∧
    anySecret ("// password = \"hunter2\"").data = true ∧
    containsSub "process.env".data ("// password = \"hunter2\"").data = false ∧
    (∃ i ∈ secretsPass [("// password = \"hunter2\"").data],
      i.category = .security ∧ i.severity = .high ∧ i.line = 1) :=
  ⟨rfl, c7_comment_suppression.1 _ rfl, rfl, rfl,
    c7_comment_suppression.2.1 _ rfl, rfl, rfl, rfl,
    c7_comment_suppression.2.2.2 _ rfl rfl rfl⟩

/-- C10: for any file at most the size ceiling, the reported line count and
size describe the whole content while the issues are computed from its
10,000-character prefix alone, so every finding's line falls within the
prefix's line range; a pattern occurring only beyond the prefix can produce
no finding, since the analysis never sees it. -/
theorem c10_truncated_analysis (ext content : String) (h : content.length ≤ 50000) :
    resultLines (analyzeFile1 ext content) = countLines content.data ∧
    resultSize (analyzeFile1 ext content) = content.length ∧
    resultIssues (analyzeFile1 ext content) =
      patIssues (content.data.take 10000) ++
        semicolonIssues ext (content.data.take 10000) (countLines content.data) ∧
    ∀ i ∈ resultIssues (analyzeFile1 ext content),
      i.line ≤ countLines (content.data.take 10000) := by
  have hn : ¬ content.length > 50000 := by omega
  rw [analyzeFile1, if_neg hn]
  refine ⟨rfl, rfl, rfl, ?_⟩
  intro i hi
  have hi' : i ∈ patIssues (content.data.take 10000) ++
      semicolonIssues ext (content.data.take 10000) (countLines content.data) := hi
  rcases List.mem_append.mp hi' with hm | hm
  · obtain ⟨-, idx, hline⟩ := patIssues_mem hm
    rw [hline]
    exact lineOfIdx_le _ _
  · rw [(semicolonIssues_mem hm).2]
    exact countLines_pos _

/-- C10 witness: the theorem applied to a concrete small file. -/
theorem c10_truncated_analysis_witness :
    ("x" : String).length ≤ 50000 ∧
    (resultLines (analyzeFile1 ".js" "x") = countLines ("x" : String).data ∧
     resultSize (analyzeFile1 ".js" "x") = ("x" : String).length ∧
     resultIssues (analyzeFile1 ".js" "x") =
       patIssues (("x" : String).data.take 10000) ++
         semicolonIssues ".js" (("x" : String).data.take 10000)
           (countLines ("x" : String).data) ∧
     ∀ i ∈ resultIssues (analyzeFile1 ".js" "x"),
       i.line ≤ countLines (("x" : String).data.take 10000)) :=
  ⟨by decide, c10_truncated_analysis ".js" "x" (by decide)⟩

end GitCopilot
